import Mathlib

/-!
# The `uncpickle_stdin` harness

A shallow embedding of `main` from `src/uncpickle_stdin.c`.

`main` is straight-line code around calls into the embedded runtime and libc.
The embedding threads an explicit state through the statements of `main`, in
source order.  The state holds

* the trace of calls made to the runtime, to `fopen` and to the allocator
  (each event carries the arguments passed and, where the call returns one,
  the result that came back),
* the text written to standard output and to standard error,
* the indices at which the argument vector was read.

The results of the external calls are not computed by this program; they are
supplied by a `World`.  Each external call whose result `main` inspects is
made at most once, so one value per call describes every possible run.
`exit(n)` and `return n` from `main` both end the process with status `n`
after flushing the stdio buffers, so the text handed to `printf` before
either of them is part of standard output.
-/

namespace UncpickleStdin

/-- A decoded wide-character string (`wchar_t *`), as its code points. -/
abbrev WideString := List Nat

/-- An open stream (`FILE *`), identified by a handle number. -/
abbrev FILE := Nat

/-- Calls made by `main`.  A `none` argument or result is the C null pointer.
`fclose` is part of the alphabet so that its absence from a trace can be
stated. -/
inductive Event where
  /-- `Py_DecodeLocale(arg, NULL)` returning `result`. -/
  | Py_DecodeLocale (arg : Option String) (result : Option WideString)
  /-- `Py_NoSiteFlag = value`. -/
  | Py_NoSiteFlag (value : Int)
  /-- `Py_SetProgramName(program)`. -/
  | Py_SetProgramName (program : WideString)
  /-- `Py_InitializeEx(initsigs)`. -/
  | Py_InitializeEx (initsigs : Int)
  /-- `__AFL_INIT()`. -/
  | __AFL_INIT
  /-- `fopen(path, mode)` returning `result`. -/
  | fopen (path : Option String) (mode : String) (result : Option FILE)
  /-- `PyRun_AnyFileEx(fp, filename, closeit)` returning `result`. -/
  | PyRun_AnyFileEx (fp : Option FILE) (filename : Option String) (closeit : Int)
      (result : Int)
  /-- `Py_FinalizeEx()` returning `result`. -/
  | Py_FinalizeEx (result : Int)
  /-- `PyMem_RawFree(p)`. -/
  | PyMem_RawFree (p : WideString)
  /-- `fclose(fp)`. -/
  | fclose (fp : Option FILE)
  deriving DecidableEq, Repr

/-- Results of the external calls, and the build flag.  The C `int` results
are integers here: `main` only compares them with the constants `-1` and `0`,
so their width plays no part. -/
structure World where
  /-- What `Py_DecodeLocale(argv[0], NULL)` returns; `none` is `NULL`. -/
  decodeResult : Option WideString
  /-- What `fopen(argv[1], "rb")` returns; `none` is `NULL`. -/
  fopenResult : Option FILE
  /-- What `PyRun_AnyFileEx(f, argv[1], closeit)` returns. -/
  runResult : Int
  /-- What `Py_FinalizeEx()` returns. -/
  finalizeResult : Int
  /-- Whether the build defines `__AFL_HAVE_MANUAL_CONTROL`. -/
  __AFL_HAVE_MANUAL_CONTROL : Bool
  deriving DecidableEq, Repr

/-- Observable state of the process while `main` runs. -/
structure State where
  trace : List Event
  stdout : String
  stderr : String
  argvReads : List Nat
  deriving DecidableEq, Repr

/-- A terminated process: its final state and exit status. -/
structure Outcome where
  state : State
  exitCode : Int
  deriving DecidableEq, Repr

/-- State at process start. -/
def State.init : State :=
  { trace := [], stdout := "", stderr := "", argvReads := [] }

/-- Append one call to the trace. -/
def State.call (s : State) (e : Event) : State :=
  { s with trace := s.trace ++ [e] }

/-- The statement `printf(text)`. -/
def State.printf (s : State) (text : String) : State :=
  { s with stdout := s.stdout ++ text }

/-- The statement `fprintf(stderr, text)`. -/
def State.fprintf_stderr (s : State) (text : String) : State :=
  { s with stderr := s.stderr ++ text }

/-- The expression `argv[i]`: the read is recorded, and an index past the
supplied arguments yields `none`. -/
def State.argv (s : State) (argv : List String) (i : Nat) : Option String × State :=
  (argv.get? i, { s with argvReads := s.argvReads ++ [i] })

/-- Process termination by `exit(status)` or by `return status` from `main`. -/
def State.exit (s : State) (status : Int) : Outcome :=
  { state := s, exitCode := status }

/-- The function `main` of `src/uncpickle_stdin.c`, statement by statement. -/
def main (w : World) (argv : List String) : Outcome :=
  let s := State.init
  -- wchar_t *program = Py_DecodeLocale(argv[0], NULL);
  let (argv0, s) := s.argv argv 0
  let program := w.decodeResult
  let s := s.call (.Py_DecodeLocale argv0 program)
  -- Py_NoSiteFlag = 1;
  let s := s.call (.Py_NoSiteFlag 1)
  -- if (program == NULL) { fprintf(stderr, ...); exit(1); }
  match program with
  | none =>
    let s := s.fprintf_stderr "Fatal error: cannot decode argv[0]\n"
    s.exit 1
  | some program =>
    -- Py_SetProgramName(program);
    let s := s.call (.Py_SetProgramName program)
    -- Py_InitializeEx(0);
    let s := s.call (.Py_InitializeEx 0)
    -- #ifdef __AFL_HAVE_MANUAL_CONTROL  __AFL_INIT();  #endif
    let s := if w.__AFL_HAVE_MANUAL_CONTROL then s.call .__AFL_INIT else s
    -- FILE *f = fopen(argv[1], "rb");
    let (path, s) := s.argv argv 1
    let f := w.fopenResult
    let s := s.call (.fopen path "rb" f)
    -- int closeit = 1;
    let closeit : Int := 1
    -- if (PyRun_AnyFileEx(f, argv[1], closeit) == -1) { printf("fail"); }
    let (filename, s) := s.argv argv 1
    let r := w.runResult
    let s := s.call (.PyRun_AnyFileEx f filename closeit r)
    let s := if r = -1 then s.printf "fail" else s
    -- if (Py_FinalizeEx() < 0) { exit(120); }
    let fin := w.finalizeResult
    let s := s.call (.Py_FinalizeEx fin)
    if fin < 0 then
      s.exit 120
    else
      -- PyMem_RawFree(program);
      let s := s.call (.PyMem_RawFree program)
      -- return 0;
      s.exit 0

/-! ## Classifying events -/

/-- Whether an event is a call to `Py_SetProgramName`. -/
def Event.isSetProgramName : Event → Bool
  | .Py_SetProgramName _ => true
  | _ => false

/-- Whether an event is a call to `Py_InitializeEx`. -/
def Event.isInitialize : Event → Bool
  | .Py_InitializeEx _ => true
  | _ => false

/-- Whether an event is the call `__AFL_INIT()`. -/
def Event.isHandshake : Event → Bool
  | .__AFL_INIT => true
  | _ => false

/-- Whether an event is a call to `fopen`. -/
def Event.isOpen : Event → Bool
  | .fopen _ _ _ => true
  | _ => false

/-- Whether an event is a call to `PyRun_AnyFileEx`. -/
def Event.isRun : Event → Bool
  | .PyRun_AnyFileEx _ _ _ _ => true
  | _ => false

/-- Whether an event is a call to `Py_FinalizeEx`. -/
def Event.isFinalize : Event → Bool
  | .Py_FinalizeEx _ => true
  | _ => false

/-- Whether an event is a call to `PyMem_RawFree`. -/
def Event.isRelease : Event → Bool
  | .PyMem_RawFree _ => true
  | _ => false

/-- Whether an event is a call to `fclose`. -/
def Event.isClose : Event → Bool
  | .fclose _ => true
  | _ => false

/-! ## Sample invocations -/

/-- A build with the handshake, a file that opens, a script that fails, and a
clean finalization. -/
def sampleWorld : World :=
  { decodeResult := some [104], fopenResult := some 3, runResult := -1,
    finalizeResult := 0, __AFL_HAVE_MANUAL_CONTROL := true }

/-- The command line `harness input.pkl`. -/
def sampleArgv : List String := ["harness", "input.pkl"]

/-- A run whose entry point returns `-2`: non-zero and negative, but not `-1`. -/
def oddFailureWorld : World :=
  { decodeResult := some [104], fopenResult := some 3, runResult := -2,
    finalizeResult := 0, __AFL_HAVE_MANUAL_CONTROL := false }

/-- A run in which `Py_DecodeLocale` returns `NULL`. -/
def undecodableWorld : World :=
  { decodeResult := none, fopenResult := some 3, runResult := 0,
    finalizeResult := 0, __AFL_HAVE_MANUAL_CONTROL := false }

/-- The command line with no argument after the program name. -/
def bareArgv : List String := ["harness"]

/-- A run whose script fails (`-1`) and whose finalization fails too. -/
def dirtyShutdownWorld : World :=
  { decodeResult := some [104], fopenResult := some 3, runResult := -1,
    finalizeResult := -1, __AFL_HAVE_MANUAL_CONTROL := false }

/-! ## Closed form of `main` -/

/-- The run of `main` when `Py_DecodeLocale` returns `NULL`. -/
theorem main_of_decode_none (w : World) (argv : List String)
    (h : w.decodeResult = none) :
    main w argv =
      { state :=
          { trace := [.Py_DecodeLocale (argv.get? 0) none, .Py_NoSiteFlag 1]
            stdout := ""
            stderr := "Fatal error: cannot decode argv[0]\n"
            argvReads := [0] }
        exitCode := 1 } := by
  simp [main, h, State.init, State.argv, State.call, State.fprintf_stderr, State.exit]

/-- The run of `main` when `Py_DecodeLocale` returns a buffer `p`. -/
theorem main_of_decode_some (w : World) (argv : List String) (p : WideString)
    (h : w.decodeResult = some p) :
    main w argv =
      { state :=
          { trace :=
              [.Py_DecodeLocale (argv.get? 0) (some p), .Py_NoSiteFlag 1,
                .Py_SetProgramName p, .Py_InitializeEx 0]
              ++ (if w.__AFL_HAVE_MANUAL_CONTROL then [.__AFL_INIT] else [])
              ++ [.fopen (argv.get? 1) "rb" w.fopenResult,
                  .PyRun_AnyFileEx w.fopenResult (argv.get? 1) 1 w.runResult,
                  .Py_FinalizeEx w.finalizeResult]
              ++ (if w.finalizeResult < 0 then [] else [.PyMem_RawFree p])
            stdout := if w.runResult = -1 then "fail" else ""
            stderr := ""
            argvReads := [0, 1, 1] }
        exitCode := if w.finalizeResult < 0 then 120 else 0 } := by
  rcases w with ⟨d, f, r, fin, afl⟩
  simp only at h
  subst h
  cases afl <;> by_cases hr : r = -1 <;> by_cases hf : fin < 0 <;>
    simp [main, hr, hf, State.init, State.argv, State.call, State.printf, State.exit]

/-- Closed form of `main` at a world written out field by field, decode
failing. -/
theorem main_mk_none (f : Option FILE) (r fin : Int) (afl : Bool) (argv : List String) :
    main ⟨none, f, r, fin, afl⟩ argv =
      { state :=
          { trace := [.Py_DecodeLocale (argv.get? 0) none, .Py_NoSiteFlag 1]
            stdout := ""
            stderr := "Fatal error: cannot decode argv[0]\n"
            argvReads := [0] }
        exitCode := 1 } :=
  main_of_decode_none _ argv rfl

/-- Closed form of `main` at a world written out field by field, decode
succeeding. -/
theorem main_mk_some (p : WideString) (f : Option FILE) (r fin : Int) (afl : Bool)
    (argv : List String) :
    main ⟨some p, f, r, fin, afl⟩ argv =
      { state :=
          { trace :=
              [.Py_DecodeLocale (argv.get? 0) (some p), .Py_NoSiteFlag 1,
                .Py_SetProgramName p, .Py_InitializeEx 0]
              ++ (if afl then [.__AFL_INIT] else [])
              ++ [.fopen (argv.get? 1) "rb" f,
                  .PyRun_AnyFileEx f (argv.get? 1) 1 r,
                  .Py_FinalizeEx fin]
              ++ (if fin < 0 then [] else [.PyMem_RawFree p])
            stdout := if r = -1 then "fail" else ""
            stderr := ""
            argvReads := [0, 1, 1] }
        exitCode := if fin < 0 then 120 else 0 } :=
  main_of_decode_some _ argv p rfl

/-! ## Exit status and output -/

/-- C1: the exit status is 1 when decoding `argv[0]` fails, otherwise 120 when
finalization returns a negative result, otherwise 0; with the decode and
finalize results fixed it is the same for every run-entry result and every
`fopen` result. -/
theorem exit_code_of_main (w : World) (argv : List String) :
    (main w argv).exitCode =
        (if w.decodeResult = none then 1 else if w.finalizeResult < 0 then 120 else 0) ∧
      ∀ (r : Int) (f : Option FILE),
        (main { w with runResult := r, fopenResult := f } argv).exitCode =
          (main w argv).exitCode := by
  rcases w with ⟨d, f, r, fin, afl⟩
  cases d with
  | none => simp [main_mk_none]
  | some p => simp [main_mk_some]

/-- C2, as stated, fails: the entry point returns `-2`, a non-zero and negative
outcome, after a successful decode, and standard output stays empty. -/
theorem fail_marker_counterexample :
    oddFailureWorld.decodeResult = some [104] ∧
      oddFailureWorld.runResult ≠ 0 ∧ oddFailureWorld.runResult < 0 ∧
      (main oddFailureWorld sampleArgv).state.stdout = "" := by
  decide

/-- C2, amended: after a successful decode, standard output is exactly `fail`
when the run entry point returns `-1`, and is empty for every other result. -/
theorem fail_marker_iff_minus_one (w : World) (argv : List String) (p : WideString)
    (h : w.decodeResult = some p) :
    (main w argv).state.stdout = (if w.runResult = -1 then "fail" else "") := by
  rw [main_of_decode_some w argv p h]

/-- C2, amended, at the sample invocation: the script fails and `fail` is
printed. -/
theorem fail_marker_iff_minus_one_witness :
    sampleWorld.decodeResult = some [104] ∧
      (main sampleWorld sampleArgv).state.stdout = "fail" :=
  ⟨rfl, fail_marker_iff_minus_one sampleWorld sampleArgv [104] rfl⟩

/-- C3: when decoding `argv[0]` fails, the diagnostic line goes to standard
error, the exit status is 1, standard output is empty, and the trace holds no
program-name registration, no runtime initialization, no handshake, no file
open and no call to the run entry point. -/
theorem decode_failure_is_fatal (w : World) (argv : List String)
    (h : w.decodeResult = none) :
    (main w argv).state.stderr = "Fatal error: cannot decode argv[0]\n" ∧
      (main w argv).exitCode = 1 ∧
      (main w argv).state.stdout = "" ∧
      ∀ e ∈ (main w argv).state.trace,
        e.isSetProgramName = false ∧ e.isInitialize = false ∧ e.isHandshake = false ∧
          e.isOpen = false ∧ e.isRun = false := by
  rw [main_of_decode_none w argv h]
  refine ⟨rfl, rfl, rfl, ?_⟩
  intro e he
  simp only [List.mem_cons, List.mem_singleton, List.not_mem_nil, or_false] at he
  rcases he with rfl | rfl <;> simp [Event.isSetProgramName, Event.isInitialize,
    Event.isHandshake, Event.isOpen, Event.isRun]

/-- C3 at an invocation whose `argv[0]` does not decode. -/
theorem decode_failure_is_fatal_witness :
    undecodableWorld.decodeResult = none ∧
      (main undecodableWorld sampleArgv).state.stderr =
        "Fatal error: cannot decode argv[0]\n" ∧
      (main undecodableWorld sampleArgv).exitCode = 1 ∧
      (main undecodableWorld sampleArgv).state.stdout = "" ∧
      ∀ e ∈ (main undecodableWorld sampleArgv).state.trace,
        e.isSetProgramName = false ∧ e.isInitialize = false ∧ e.isHandshake = false ∧
          e.isOpen = false ∧ e.isRun = false :=
  ⟨rfl, decode_failure_is_fatal undecodableWorld sampleArgv rfl⟩

/-- C4, as stated, fails: when decoding `argv[0]` fails the process exits
before finalization, and the trace holds no finalize call. -/
theorem finalize_once_counterexample :
    (main undecodableWorld sampleArgv).state.trace.countP Event.isFinalize = 0 ∧
      (main undecodableWorld sampleArgv).exitCode = 1 := by
  decide

/-- C4, amended: the trace holds exactly one finalize call when decoding
`argv[0]` succeeds, whatever the run entry point returned, and none when
decoding fails. -/
theorem finalize_once_iff_decoded (w : World) (argv : List String) :
    (main w argv).state.trace.countP Event.isFinalize =
      (if w.decodeResult = none then 0 else 1) := by
  rcases w with ⟨d, f, r, fin, afl⟩
  cases d with
  | none => simp [main_of_decode_none, Event.isFinalize]
  | some p =>
    rw [main_of_decode_some _ _ p rfl]
    cases afl <;> by_cases hf : fin < 0 <;>
      simp [hf, List.countP_cons, Event.isFinalize]

/-! ## Order of the stages -/

/-- C5: after a successful decode, a build with `__AFL_HAVE_MANUAL_CONTROL`
makes exactly one handshake call, after the runtime initialization and before
both the file open and the run entry point; a build without it makes none, and
the two runs agree on the remaining events in order, on standard output, on
standard error and on the exit status. -/
theorem handshake_placement (w : World) (argv : List String) (p : WideString)
    (h : w.decodeResult = some p) :
    (w.__AFL_HAVE_MANUAL_CONTROL = true →
        (main w argv).state.trace.countP Event.isHandshake = 1 ∧
          ∃ pre post, (main w argv).state.trace = pre ++ Event.__AFL_INIT :: post ∧
            (∃ e ∈ pre, e.isInitialize = true) ∧ (∀ e ∈ post, e.isInitialize = false) ∧
            (∃ e ∈ post, e.isOpen = true) ∧ (∀ e ∈ pre, e.isOpen = false) ∧
            (∃ e ∈ post, e.isRun = true) ∧ (∀ e ∈ pre, e.isRun = false)) ∧
      (w.__AFL_HAVE_MANUAL_CONTROL = false →
        (main w argv).state.trace.countP Event.isHandshake = 0) ∧
      (main { w with __AFL_HAVE_MANUAL_CONTROL := true } argv).state.trace.filter
          (fun e => !e.isHandshake) =
        (main { w with __AFL_HAVE_MANUAL_CONTROL := false } argv).state.trace ∧
      (main { w with __AFL_HAVE_MANUAL_CONTROL := true } argv).state.stdout =
        (main { w with __AFL_HAVE_MANUAL_CONTROL := false } argv).state.stdout ∧
      (main { w with __AFL_HAVE_MANUAL_CONTROL := true } argv).state.stderr =
        (main { w with __AFL_HAVE_MANUAL_CONTROL := false } argv).state.stderr ∧
      (main { w with __AFL_HAVE_MANUAL_CONTROL := true } argv).exitCode =
        (main { w with __AFL_HAVE_MANUAL_CONTROL := false } argv).exitCode := by
  rcases w with ⟨d, f, r, fin, afl⟩
  simp only at h
  subst h
  refine ⟨?_, ?_, ?_, ?_, ?_, ?_⟩
  · intro hafl
    simp only at hafl
    subst hafl
    refine ⟨?_, [.Py_DecodeLocale (argv.get? 0) (some p), .Py_NoSiteFlag 1,
        .Py_SetProgramName p, .Py_InitializeEx 0],
      [.fopen (argv.get? 1) "rb" f, .PyRun_AnyFileEx f (argv.get? 1) 1 r,
        .Py_FinalizeEx fin] ++ (if fin < 0 then [] else [.PyMem_RawFree p]), ?_, ?_⟩
    · by_cases hf : fin < 0 <;>
        simp [main_mk_some, hf, List.countP_cons, Event.isHandshake]
    · simp [main_mk_some]
    · by_cases hf : fin < 0 <;>
        simp [hf, Event.isInitialize, Event.isOpen, Event.isRun]
  · intro hafl
    simp only at hafl
    subst hafl
    by_cases hf : fin < 0 <;>
      simp [main_mk_some, hf, List.countP_cons, Event.isHandshake]
  · by_cases hf : fin < 0 <;>
      simp [main_mk_some, hf, List.filter_cons, Event.isHandshake]
  · simp [main_mk_some]
  · simp [main_mk_some]
  · simp [main_mk_some]

/-- C5 at the sample invocation, built with the handshake. -/
theorem handshake_placement_witness :
    sampleWorld.decodeResult = some [104] ∧
      sampleWorld.__AFL_HAVE_MANUAL_CONTROL = true ∧
      (main sampleWorld sampleArgv).state.trace.countP Event.isHandshake = 1 :=
  ⟨rfl, rfl, ((handshake_placement sampleWorld sampleArgv [104] rfl).1 rfl).1⟩

/-- C6: after a successful decode, a negative finalize result gives exit status
120 with no release of the program-name buffer; any other finalize result
gives exit status 0 with exactly one release of that buffer, placed after the
finalize call.  No run of `main` exits with 120 otherwise. -/
theorem shutdown_outcome (w : World) (argv : List String) (p : WideString)
    (h : w.decodeResult = some p) :
    (w.finalizeResult < 0 →
        (main w argv).exitCode = 120 ∧
          ∀ e ∈ (main w argv).state.trace, e.isRelease = false) ∧
      (0 ≤ w.finalizeResult →
        (main w argv).exitCode = 0 ∧
          (main w argv).state.trace.countP Event.isRelease = 1 ∧
          ∃ pre, (main w argv).state.trace = pre ++ [Event.PyMem_RawFree p] ∧
            Event.Py_FinalizeEx w.finalizeResult ∈ pre) ∧
      ∀ (w' : World) (argv' : List String), (main w' argv').exitCode = 120 →
        w'.decodeResult ≠ none ∧ w'.finalizeResult < 0 := by
  rcases w with ⟨d, f, r, fin, afl⟩
  simp only at h
  subst h
  refine ⟨?_, ?_, ?_⟩
  · intro hf
    simp only at hf
    cases afl <;> simp [main_mk_some, hf, Event.isRelease]
  · intro hf
    simp only at hf
    have hf' : ¬ fin < 0 := not_lt.mpr hf
    refine ⟨by simp [main_mk_some, hf'], ?_, ?_⟩
    · cases afl <;> simp [main_mk_some, hf', List.countP_cons, Event.isRelease]
    · refine ⟨[.Py_DecodeLocale (argv.get? 0) (some p), .Py_NoSiteFlag 1,
          .Py_SetProgramName p, .Py_InitializeEx 0]
          ++ (if afl then [.__AFL_INIT] else [])
          ++ [.fopen (argv.get? 1) "rb" f, .PyRun_AnyFileEx f (argv.get? 1) 1 r,
            .Py_FinalizeEx fin], ?_, ?_⟩
      · simp [main_mk_some, hf']
      · simp
  · rintro ⟨d', f', r', fin', afl'⟩ argv' h120
    cases d' with
    | none => simp [main_mk_none] at h120
    | some q =>
      by_cases hf : fin' < 0
      · simp [hf]
      · simp [main_mk_some, hf] at h120

/-- C6 at the sample invocation, whose finalization succeeds. -/
theorem shutdown_outcome_witness :
    sampleWorld.decodeResult = some [104] ∧ 0 ≤ sampleWorld.finalizeResult ∧
      (main sampleWorld sampleArgv).exitCode = 0 ∧
      (main sampleWorld sampleArgv).state.trace.countP Event.isRelease = 1 :=
  ⟨rfl, by decide,
    ((shutdown_outcome sampleWorld sampleArgv [104] rfl).2.1 (by decide)).1,
    ((shutdown_outcome sampleWorld sampleArgv [104] rfl).2.1 (by decide)).2.1⟩

/-- C7: after a successful decode, the trace holds exactly one `fopen` call and
exactly one run-entry call; the `fopen` is of `argv[1]` in mode `rb`, and the
run entry point receives the stream that `fopen` returned (the null stream when
the open failed), the same `argv[1]` as file name, and `closeit = 1`; the trace
holds no `fclose`. -/
theorem run_entry_once (w : World) (argv : List String) (p : WideString)
    (h : w.decodeResult = some p) :
    (main w argv).state.trace.countP Event.isRun = 1 ∧
      (main w argv).state.trace.countP Event.isOpen = 1 ∧
      (∃ pre mid post, (main w argv).state.trace =
        pre ++ Event.fopen (argv.get? 1) "rb" w.fopenResult :: mid ++
          Event.PyRun_AnyFileEx w.fopenResult (argv.get? 1) 1 w.runResult :: post) ∧
      (w.fopenResult = none →
        Event.PyRun_AnyFileEx none (argv.get? 1) 1 w.runResult ∈ (main w argv).state.trace) ∧
      ∀ e ∈ (main w argv).state.trace, e.isClose = false := by
  rcases w with ⟨d, f, r, fin, afl⟩
  simp only at h
  subst h
  refine ⟨?_, ?_, ?_, ?_, ?_⟩
  · cases afl <;> by_cases hf : fin < 0 <;>
      simp [main_mk_some, hf, List.countP_cons, Event.isRun]
  · cases afl <;> by_cases hf : fin < 0 <;>
      simp [main_mk_some, hf, List.countP_cons, Event.isOpen]
  · refine ⟨[.Py_DecodeLocale (argv.get? 0) (some p), .Py_NoSiteFlag 1,
        .Py_SetProgramName p, .Py_InitializeEx 0] ++ (if afl then [.__AFL_INIT] else []),
      [], [.Py_FinalizeEx fin] ++ (if fin < 0 then [] else [.PyMem_RawFree p]), ?_⟩
    simp [main_mk_some]
  · intro hnull
    simp only at hnull
    subst hnull
    simp [main_mk_some]
  · cases afl <;> by_cases hf : fin < 0 <;>
      simp [main_mk_some, hf, Event.isClose]

/-- C7 at the sample invocation. -/
theorem run_entry_once_witness :
    sampleWorld.decodeResult = some [104] ∧
      (main sampleWorld sampleArgv).state.trace.countP Event.isRun = 1 ∧
      (main sampleWorld sampleArgv).state.trace.countP Event.isOpen = 1 :=
  ⟨rfl, (run_entry_once sampleWorld sampleArgv [104] rfl).1,
    (run_entry_once sampleWorld sampleArgv [104] rfl).2.1⟩

/-- C8, as stated, fails: decoding succeeds and the run entry point returns
`-1`, the marker is printed, and the exit status is 120 because finalization
failed. -/
theorem script_error_exit_counterexample :
    dirtyShutdownWorld.decodeResult = some [104] ∧
      dirtyShutdownWorld.runResult = -1 ∧
      (main dirtyShutdownWorld sampleArgv).state.stdout = "fail" ∧
      (main dirtyShutdownWorld sampleArgv).exitCode = 120 := by
  decide

/-- C8, amended: when decoding succeeds and the run entry point returns `-1`,
standard output is exactly `fail`; the exit status is 0 when finalization
succeeds and 120 when it returns a negative result. -/
theorem script_error_exit (w : World) (argv : List String) (p : WideString)
    (h : w.decodeResult = some p) (hr : w.runResult = -1) :
    (main w argv).state.stdout = "fail" ∧
      (0 ≤ w.finalizeResult → (main w argv).exitCode = 0) ∧
      (w.finalizeResult < 0 → (main w argv).exitCode = 120) := by
  rw [main_of_decode_some w argv p h]
  refine ⟨by simp [hr], fun hf => ?_, fun hf => ?_⟩
  · simp [not_lt.mpr hf]
  · simp [hf]

/-- C8, amended, at the sample invocation: the script fails, finalization
succeeds, and the exit status is 0. -/
theorem script_error_exit_witness :
    sampleWorld.decodeResult = some [104] ∧ sampleWorld.runResult = -1 ∧
      0 ≤ sampleWorld.finalizeResult ∧
      (main sampleWorld sampleArgv).state.stdout = "fail" ∧
      (main sampleWorld sampleArgv).exitCode = 0 :=
  ⟨rfl, rfl, by decide, (script_error_exit sampleWorld sampleArgv [104] rfl rfl).1,
    (script_error_exit sampleWorld sampleArgv [104] rfl rfl).2.1 (by decide)⟩

/-- C9: after a successful decode the trace is, in this order: decode of
`argv[0]`, the no-site flag, registration of the decoded program name, runtime
initialization, the handshake when built in, the open of `argv[1]`, the run
entry point, finalization, and the release of the program-name buffer when
finalization did not fail.  The flag and the registration come before the
initialization; initialize, run and finalize each occur once; no event
repeats. -/
theorem linear_trace (w : World) (argv : List String) (p : WideString)
    (h : w.decodeResult = some p) :
    (main w argv).state.trace =
        [Event.Py_DecodeLocale (argv.get? 0) (some p), Event.Py_NoSiteFlag 1,
          Event.Py_SetProgramName p, Event.Py_InitializeEx 0]
        ++ (if w.__AFL_HAVE_MANUAL_CONTROL then [Event.__AFL_INIT] else [])
        ++ [Event.fopen (argv.get? 1) "rb" w.fopenResult,
            Event.PyRun_AnyFileEx w.fopenResult (argv.get? 1) 1 w.runResult,
            Event.Py_FinalizeEx w.finalizeResult]
        ++ (if w.finalizeResult < 0 then [] else [Event.PyMem_RawFree p]) ∧
      (∃ pre post, (main w argv).state.trace = pre ++ Event.Py_InitializeEx 0 :: post ∧
        Event.Py_NoSiteFlag 1 ∈ pre ∧ Event.Py_SetProgramName p ∈ pre) ∧
      (main w argv).state.trace.countP Event.isInitialize = 1 ∧
      (main w argv).state.trace.countP Event.isRun = 1 ∧
      (main w argv).state.trace.countP Event.isFinalize = 1 ∧
      (main w argv).state.trace.Nodup := by
  rcases w with ⟨d, f, r, fin, afl⟩
  simp only at h
  subst h
  refine ⟨by rw [main_mk_some], ?_, ?_, ?_, ?_, ?_⟩
  · refine ⟨[.Py_DecodeLocale (argv.get? 0) (some p), .Py_NoSiteFlag 1,
        .Py_SetProgramName p],
      (if afl then [.__AFL_INIT] else [])
        ++ [.fopen (argv.get? 1) "rb" f, .PyRun_AnyFileEx f (argv.get? 1) 1 r,
          .Py_FinalizeEx fin]
        ++ (if fin < 0 then [] else [.PyMem_RawFree p]), ?_, ?_, ?_⟩
    · simp [main_mk_some]
    · simp
    · simp
  · cases afl <;> by_cases hf : fin < 0 <;>
      simp [main_mk_some, hf, List.countP_cons, Event.isInitialize]
  · cases afl <;> by_cases hf : fin < 0 <;>
      simp [main_mk_some, hf, List.countP_cons, Event.isRun]
  · cases afl <;> by_cases hf : fin < 0 <;>
      simp [main_mk_some, hf, List.countP_cons, Event.isFinalize]
  · cases afl <;> by_cases hf : fin < 0 <;>
      simp [main_mk_some, hf]

/-- C9 at the sample invocation: the nine calls of a clean run of a build
with the handshake. -/
theorem linear_trace_witness :
    sampleWorld.decodeResult = some [104] ∧
      (main sampleWorld sampleArgv).state.trace =
        [Event.Py_DecodeLocale (some "harness") (some [104]), Event.Py_NoSiteFlag 1,
          Event.Py_SetProgramName [104], Event.Py_InitializeEx 0, Event.__AFL_INIT,
          Event.fopen (some "input.pkl") "rb" (some 3),
          Event.PyRun_AnyFileEx (some 3) (some "input.pkl") 1 (-1),
          Event.Py_FinalizeEx 0, Event.PyMem_RawFree [104]] :=
  ⟨rfl, (linear_trace sampleWorld sampleArgv [104] rfl).1⟩

/-! ## Reads of the argument vector -/

/-- C10: `main` reads `argv` only at indices 0 and 1, and its exit status, its
output and the indices it reads do not depend on the argument list.  With at least two arguments every read is in
range and yields an argument.  With exactly one argument, index 1 is past the
supplied arguments; it is read exactly when decoding `argv[0]` succeeded, and
then the trace holds the `fopen` call and the run-entry call, both with the
absent path. -/
theorem argv_reads (w : World) (argv : List String) :
    (∀ i ∈ (main w argv).state.argvReads, i = 0 ∨ i = 1) ∧
      (∀ argv' : List String,
        (main w argv').exitCode = (main w argv).exitCode ∧
          (main w argv').state.stdout = (main w argv).state.stdout ∧
          (main w argv').state.stderr = (main w argv).state.stderr ∧
          (main w argv').state.argvReads = (main w argv).state.argvReads) ∧
      (2 ≤ argv.length →
        ∀ i ∈ (main w argv).state.argvReads, i < argv.length ∧ (argv.get? i).isSome = true) ∧
      (argv.length = 1 →
        argv.get? 1 = none ∧
          (1 ∈ (main w argv).state.argvReads ↔ w.decodeResult ≠ none) ∧
          (1 ∈ (main w argv).state.argvReads →
            Event.fopen none "rb" w.fopenResult ∈ (main w argv).state.trace ∧
              Event.PyRun_AnyFileEx w.fopenResult none 1 w.runResult ∈
                (main w argv).state.trace)) := by
  rcases w with ⟨d, f, r, fin, afl⟩
  have hget : ∀ i, i < argv.length → (argv.get? i).isSome = true := by
    intro i hi
    rw [List.get?_eq_get hi]
    rfl
  cases d with
  | none =>
    refine ⟨by simp [main_mk_none], fun argv' => by simp [main_mk_none], ?_, ?_⟩
    · intro hlen i hi
      simp [main_mk_none] at hi
      subst hi
      exact ⟨by omega, hget 0 (by omega)⟩
    · intro hlen
      refine ⟨by simp [List.get?_eq_none, hlen], by simp [main_mk_none], ?_⟩
      intro h1
      simp [main_mk_none] at h1
  | some p =>
    refine ⟨by simp [main_mk_some], fun argv' => by simp [main_mk_some], ?_, ?_⟩
    · intro hlen i hi
      simp [main_mk_some] at hi
      rcases hi with rfl | rfl
      · exact ⟨by omega, hget 0 (by omega)⟩
      · exact ⟨by omega, hget 1 (by omega)⟩
    · intro hlen
      have hnone : argv.get? 1 = none := by simp [List.get?_eq_none, hlen]
      refine ⟨hnone, by simp [main_mk_some], fun _ => ?_⟩
      rw [main_mk_some, hnone]
      simp

/-- C10 at the command line with the program name alone: index 1 is read, is
past the end, and `fopen` and the run entry point are still called, with the
absent path. -/
theorem argv_reads_witness :
    bareArgv.length = 1 ∧ 1 ∈ (main sampleWorld bareArgv).state.argvReads ∧
      bareArgv.get? 1 = none ∧
      Event.fopen none "rb" (some 3) ∈ (main sampleWorld bareArgv).state.trace ∧
      Event.PyRun_AnyFileEx (some 3) none 1 (-1) ∈ (main sampleWorld bareArgv).state.trace :=
  ⟨rfl, by decide, ((argv_reads sampleWorld bareArgv).2.2.2 rfl).1,
    (((argv_reads sampleWorld bareArgv).2.2.2 rfl).2.2 (by decide)).1,
    (((argv_reads sampleWorld bareArgv).2.2.2 rfl).2.2 (by decide)).2⟩

end UncpickleStdin
